import Mathlib

/-!
Verification of the usbc_tester test-sequencing core: a shallow embedding of
the 40-bit millisecond time base (`hal_time.rs`), the calibrated ADC reader
(`adc.rs`) and the bank-scanning state machine (`main.rs`), with theorems
settling the specification claims about them.

Machine integers are embedded as `Nat` with explicit `% 2^w` wherever the
source relies on wrapping; u32 range side conditions appear as hypotheses.
-/

/-! ## Monotonic clock: `TimeMs` (src/sw/betrusted-hal/src/hal_time.rs) -/

/-- `struct TimeMs { time0: u32, time1: u32 }`: low 32 bits and high 8 bits
(carried in a u32) of the 40-bit hardware millisecond counter. -/
structure TimeMs where
  time0 : Nat
  time1 : Nat
  deriving DecidableEq

/-- `enum TimeMsErr { Overflow, Underflow }` -/
inductive TimeMsErr where
  | Overflow
  | Underflow
  deriving DecidableEq

/-- `impl PartialOrd for TimeMs`: compare `time1`; on equality compare `time0`.
`TimeMs.ltb a b` is `a < b` under that ordering. -/
def TimeMs.ltb (a b : TimeMs) : Bool :=
  if a.time1 = b.time1 then decide (a.time0 < b.time0) else decide (a.time1 < b.time1)

/-- `TimeMs::add_ms`: `time0.overflowing_add(interval_ms)`; on overflow the high
word is `0xff & time1.wrapping_add(1)`. -/
def TimeMs.add_ms (t : TimeMs) (interval_ms : Nat) : TimeMs :=
  if t.time0 + interval_ms < 2 ^ 32 then
    { time0 := t.time0 + interval_ms, time1 := t.time1 }
  else
    { time0 := (t.time0 + interval_ms) % 2 ^ 32,
      time1 := (t.time1 + 1) % 2 ^ 32 % 256 }

/-- `TimeMs::add_s`: advance by `interval_s` seconds, saturating at
`END_OF_TIME_MS = 2^40 - 1`; `(interval_s as u64).overflowing_mul(1000)` is
modelled by the `< 2^64` overflow test, `saturating_add` by `min _ (2^64 - 1)`,
and the `>> 32` / `& 0xffff_ffff` / `as u32` splits by `/`, `%`. -/
def TimeMs.add_s (t : TimeMs) (interval_s : Nat) : TimeMs :=
  let endOfTimeMs : Nat := 2 ^ 40 - 1
  let time : Nat :=
    if interval_s * 1000 < 2 ^ 64 ∧ interval_s * 1000 < endOfTimeMs then
      interval_s * 1000
    else
      endOfTimeMs
  let start_time : Nat := t.time1 * 2 ^ 32 + t.time0
  let target0 : Nat := min (start_time + time) (2 ^ 64 - 1)
  let target : Nat := if target0 > endOfTimeMs then endOfTimeMs else target0
  { time0 := target % 2 ^ 32, time1 := target / 2 ^ 32 % 2 ^ 32 }

/-- `TimeMs::sub_u32`: `Err(Underflow)` when `self < earlier`; otherwise match on
`time1.wrapping_sub(earlier.time1)`: `0 | 1` gives `Ok(time0.wrapping_sub(earlier.time0))`,
anything else gives `Err(Overflow)`. `wrapping_sub` on u32 is `(a + 2^32 - b) % 2^32`. -/
def TimeMs.sub_u32 (self earlier : TimeMs) : Except TimeMsErr Nat :=
  if TimeMs.ltb self earlier then
    .error .Underflow
  else
    match (self.time1 + 2 ^ 32 - earlier.time1) % 2 ^ 32 with
    | 0 => .ok ((self.time0 + 2 ^ 32 - earlier.time0) % 2 ^ 32)
    | 1 => .ok ((self.time0 + 2 ^ 32 - earlier.time0) % 2 ^ 32)
    | _ => .error .Overflow

/-- The true millisecond count a timestamp denotes: high word shifted by 32 bits
plus the low word (the 40-bit counter value, per the data model). -/
def TimeMs.value (t : TimeMs) : Nat :=
  t.time1 * 2 ^ 32 + t.time0

/-- Claim C3: the claim states `sub_u32` returns `Overflow` whenever `b >= a` and the
true difference is at least `2^32`. The code instead returns `Ok` with a truncated
value when the high words differ by exactly 1 and the low words do not borrow:
at `b = {time0: 0, time1: 1}`, `a = {time0: 0, time1: 0}` the true difference is
exactly `2^32`, `b` is not less than `a`, yet the code returns `Ok(0)`. -/
theorem c3_sub_u32_overflow_missed :
    TimeMs.ltb { time0 := 0, time1 := 1 } { time0 := 0, time1 := 0 } = false ∧
    TimeMs.value { time0 := 0, time1 := 1 } =
      TimeMs.value { time0 := 0, time1 := 0 } + 2 ^ 32 ∧
    TimeMs.sub_u32 { time0 := 0, time1 := 1 } { time0 := 0, time1 := 0 } =
      Except.ok 0 :=
  ⟨by decide, by decide, rfl⟩

/-- Claim C4: for u32-ranged timestamps with `a ≤ b` in true time and true
difference below `2^32`, `sub_u32 b a` returns `Ok` of exactly that difference,
including across a low-word wraparound (high words equal or differing by one). -/
theorem c4_sub_u32_exact (a b : TimeMs)
    (ha0 : a.time0 < 2 ^ 32) (ha1 : a.time1 < 2 ^ 32)
    (hb0 : b.time0 < 2 ^ 32) (hb1 : b.time1 < 2 ^ 32)
    (hle : a.value ≤ b.value) (hdiff : b.value - a.value < 2 ^ 32) :
    TimeMs.sub_u32 b a = Except.ok (b.value - a.value) := by
  simp only [TimeMs.value] at hle hdiff ⊢
  have h1le : a.time1 ≤ b.time1 := by omega
  have hltb : TimeMs.ltb b a = false := by
    unfold TimeMs.ltb
    split
    · simp only [decide_eq_false_iff_not, not_lt]
      omega
    · simp only [decide_eq_false_iff_not, not_lt]
      omega
  have hcases : b.time1 = a.time1 ∨ b.time1 = a.time1 + 1 := by omega
  unfold TimeMs.sub_u32
  rw [if_neg (by simp [hltb])]
  rcases hcases with hc | hc
  · have hscrut : (b.time1 + 2 ^ 32 - a.time1) % 2 ^ 32 = 0 := by omega
    simp only [hscrut]
    congr 1
    omega
  · have hscrut : (b.time1 + 2 ^ 32 - a.time1) % 2 ^ 32 = 1 := by omega
    simp only [hscrut]
    congr 1
    omega

/-- Witness for C4 at a concrete wraparound pair: the low word wrapped from
`0xfffffffa` to `5` while the high word incremented by one; the reported elapsed
time is exactly 11 ms. -/
theorem c4_sub_u32_exact_witness :
    TimeMs.sub_u32 { time0 := 5, time1 := 1 } { time0 := 4294967290, time1 := 0 } =
      Except.ok (TimeMs.value { time0 := 5, time1 := 1 } -
        TimeMs.value { time0 := 4294967290, time1 := 0 }) :=
  c4_sub_u32_exact { time0 := 4294967290, time1 := 0 } { time0 := 5, time1 := 1 }
    (by decide) (by decide) (by decide) (by decide) (by decide) (by decide)

/-- Claim C6: for u32-ranged `x`, `y` whose sum does not overflow u32 addition,
`add_ms t (x + y) = add_ms (add_ms t x) y`, the high word wrapping modulo 256 on
low-word overflow. -/
theorem c6_add_ms_assoc (t : TimeMs) (x y : Nat)
    (h0 : t.time0 < 2 ^ 32) (hxy : x + y < 2 ^ 32) :
    t.add_ms (x + y) = (t.add_ms x).add_ms y := by
  unfold TimeMs.add_ms
  by_cases hx : t.time0 + x < 2 ^ 32
  · rw [if_pos hx]
    by_cases hxy2 : t.time0 + (x + y) < 2 ^ 32
    · rw [if_pos hxy2, if_pos (by simpa [Nat.add_assoc] using hxy2)]
      simp [Nat.add_assoc]
    · rw [if_neg hxy2, if_neg (by simpa [Nat.add_assoc] using hxy2)]
      simp only [TimeMs.mk.injEq]
      exact ⟨by omega, trivial⟩
  · rw [if_neg hx]
    have hxy2 : ¬ t.time0 + (x + y) < 2 ^ 32 := by omega
    rw [if_neg hxy2]
    have hsecond : (t.time0 + x) % 2 ^ 32 + y < 2 ^ 32 := by omega
    rw [if_pos hsecond]
    simp only [TimeMs.mk.injEq]
    exact ⟨by omega, trivial⟩

/-- Witness for C6 at a concrete low-word rollover: adding 2 ms across the
`0xffffffff` boundary in one step or two. -/
theorem c6_add_ms_assoc_witness :
    TimeMs.add_ms { time0 := 4294967295, time1 := 0 } (1 + 1) =
      (TimeMs.add_ms { time0 := 4294967295, time1 := 0 } 1).add_ms 1 :=
  c6_add_ms_assoc { time0 := 4294967295, time1 := 0 } 1 1 (by decide) (by decide)

/-- Claim C7: for any timestamp within the 40-bit range and any u32 second count,
`add_s` never yields a combined value above `2^40 - 1`; in particular
`add_s 0 4294967295` saturates at `2^40 - 1` instead of wrapping. -/
theorem c7_add_s_saturates (t : TimeMs) (s : Nat)
    (h0 : t.time0 < 2 ^ 32) (h40 : t.value ≤ 2 ^ 40 - 1) (hs : s < 2 ^ 32) :
    (t.add_s s).value ≤ 2 ^ 40 - 1 ∧
      (TimeMs.add_s { time0 := 0, time1 := 0 } 4294967295).value = 2 ^ 40 - 1 := by
  constructor
  · simp only [TimeMs.add_s, TimeMs.value]
    split_ifs <;> omega
  · decide

/-! ## ADC channels and the calibrated reader (src/sw/src/adc.rs) -/

/-- The `utra::dut` register fields naming the multiplexed DUT pins
(`utralib` field descriptors are opaque identifiers compared with `==`). -/
inductive utralib.Field where
  | DUT_GND_EX
  | DUT_VBUS_EX
  | DUT_D2_P_A6
  | DUT_D2_N_A7
  | DUT_GND_B12
  | DUT_VBUS_B9
  | DUT_CC2_B5
  | DUT_GND_B1
  | DUT_GND_A1
  | DUT_VBUS_A4
  | DUT_CC1_A5
  | DUT_VBUS_A9
  | DUT_D1_P_A6
  | DUT_D1_N_A7
  | DUT_GND_A12
  | DUT_VBUS_B4
  | DUT_IBUS
  deriving DecidableEq

instance : BEq utralib.Field where
  beq a b := decide (a = b)

/-- `CHANNEL_MAP`: the index in this list is the ADC channel for a DUT enable. -/
def CHANNEL_MAP : List utralib.Field :=
  [.DUT_D1_P_A6, .DUT_D1_N_A7, .DUT_GND_A12, .DUT_VBUS_B4,
   .DUT_GND_B12, .DUT_CC2_B5, .DUT_VBUS_B9, .DUT_GND_B1,
   .DUT_D2_N_A7, .DUT_D2_P_A6, .DUT_VBUS_EX, .DUT_IBUS,
   .DUT_GND_A1, .DUT_VBUS_A9, .DUT_VBUS_A4, .DUT_CC1_A5]

/-- `Adc::read`: find the ADC channel of `channel` in `CHANNEL_MAP` (the source
scans with an `ch = 16` sentinel and returns `None` when unmatched); take the
calibration sample on channel `3 + 8` with the mux neutral, the measurement
sample on the mapped channel, and return `Some(0)` when `meas >= cal`, else
`Some(cal - meas)`. The averaged hardware conversions of `read_inner` are
abstracted as the per-channel oracle `sample`. -/
def Adc.read (sample : Nat → Nat) (channel : utralib.Field) : Option Nat :=
  match CHANNEL_MAP.findIdx? (fun f => f == channel) with
  | none => none
  | some ch =>
    let cal := sample (3 + 8)
    let meas := sample ch
    if cal ≤ meas then some 0 else some (cal - meas)

/-! ## Pin banks and the bank scanner (src/sw/src/main.rs) -/

/-- `UPPER_PINS`: the 4 pins of the Upper bank with their labels. -/
def UPPER_PINS : List (utralib.Field × String) :=
  [(.DUT_GND_EX, "DUT_GND_EX"),
   (.DUT_VBUS_EX, "DUT_VBUS_EX"),
   (.DUT_D2_P_A6, "D_P: Pin B7"),
   (.DUT_D2_N_A7, "D_N: Pin B6")]

/-- `LOWER_PINS`: the 12 pins of the Lower bank with their labels. -/
def LOWER_PINS : List (utralib.Field × String) :=
  [(.DUT_GND_B12, "GND: Pin B12"),
   (.DUT_VBUS_B9, "VBUS: Pin B9"),
   (.DUT_CC2_B5, "CC2: Pin B5"),
   (.DUT_GND_B1, "GND: Pin B1"),
   (.DUT_GND_A1, "GND: Pin A1"),
   (.DUT_VBUS_A4, "VBUS: Pin A4"),
   (.DUT_CC1_A5, "CC1: Pin A5"),
   (.DUT_VBUS_A9, "VBUS: Pin A9"),
   (.DUT_D1_P_A6, "D_P: Pin A6"),
   (.DUT_D1_N_A7, "D_N: Pin A7"),
   (.DUT_GND_A12, "GND: Pin A12"),
   (.DUT_VBUS_B4, "VBUS: Pin B4")]

/-- `enum PinBank { Upper, Lower }` -/
inductive PinBank where
  | Upper
  | Lower
  deriving DecidableEq

/-- `MIN_NC_THRESH`: anything above this is considered an "open" pin. -/
def MIN_NC_THRESH : Nat := 1000

/-- The `match adc.read(field)` fallback in `check_pins`: a failed read
(`None`, logged "ADC channel invalid") is substituted with `u16::MAX`. -/
def read_or_max (r : utralib.Field → Option Nat) (field : utralib.Field) : Nat :=
  match r field with
  | some v => v
  | none => 65535

/-- `check_pins`: scan the pins of `bank` in order into a fixed
`[(Option<&str>, u16); 12]` array initialised to `(None, u16::MAX)`; entry
`index` becomes `(Some(name), reading)`. `r` abstracts `adc.read`. -/
def check_pins (bank : PinBank) (r : utralib.Field → Option Nat) : List (Option String × Nat) :=
  let bank_iter := match bank with
    | PinBank.Lower => LOWER_PINS
    | PinBank.Upper => UPPER_PINS
  bank_iter.enum.foldl
    (fun results p => results.set p.1 (some p.2.2, read_or_max r p.2.1))
    (List.replicate 12 ((none : Option String), 65535))

/-- `check_insert`: true iff any reading of the bank is below `MIN_NC_THRESH`. -/
def check_insert (bank : PinBank) (r : utralib.Field → Option Nat) : Bool :=
  (check_pins bank r).any (fun p => decide (p.2 < MIN_NC_THRESH))

/-- `settling_check`: the settlement snapshot `[bool; 12]` — slot `index` is
true iff the reading at `index` is below `MIN_NC_THRESH`. -/
def settling_check (bank : PinBank) (r : utralib.Field → Option Nat) : List Bool :=
  (check_pins bank r).enum.foldl
    (fun ret p => ret.set p.1 (decide (p.2.2 < MIN_NC_THRESH)))
    (List.replicate 12 false)

/-- `results_equal`: element-wise comparison of two snapshots, false at the
first mismatch. -/
def results_equal (a b : List Bool) : Bool :=
  (a.zip b).all (fun p => p.1 == p.2)

/-! ## The test sequencer state machine (src/sw/src/main.rs, main loop) -/

/-- `enum TestState { WaitInsert, Measure, ReportResult }` -/
inductive TestState where
  | WaitInsert
  | Measure
  | ReportResult
  deriving DecidableEq

/-- The per-run mutable locals of the test loop. -/
structure TestLoopState where
  test_state : TestState
  stabilize : Nat
  last_result : List Bool
  lower_result : List (Option String × Nat)
  lower_finished : Bool
  upper_result : List (Option String × Nat)
  upper_finished : Bool
  bank : PinBank
  counter : Nat

/-- The stabilization-counter update in `TestState::Measure`: increment on an
identical snapshot, reset to zero on a differing one. -/
def stab_update (new_result last_result : List Bool) (stabilize : Nat) : Nat :=
  if results_equal new_result last_result then stabilize + 1 else 0

/-- The `passing` computation of `TestState::ReportResult`: start from `true`
and clear it at any entry of either stored result whose value exceeds
`MIN_NC_THRESH`. -/
def report_passing (lower_result upper_result : List (Option String × Nat)) : Bool :=
  let passing := lower_result.foldl
    (fun passing p => if p.2 > MIN_NC_THRESH then false else passing) true
  upper_result.foldl
    (fun passing p => if p.2 > MIN_NC_THRESH then false else passing) passing

/-- One iteration of the inner test loop body (the `match test_state` block),
with the ADC readings of this iteration abstracted as `r`. Screen, LED and
UART side effects are omitted; `ReportResult` leaves the state unchanged (its
verdict is `report_passing`). -/
def step (s : TestLoopState) (r : utralib.Field → Option Nat) : TestLoopState :=
  match s.test_state with
  | TestState.WaitInsert =>
    let s := { s with counter := 0, stabilize := 0 }
    if s.upper_finished && s.lower_finished then
      { s with test_state := TestState.ReportResult }
    else if !s.lower_finished && check_insert PinBank.Lower r then
      { s with test_state := TestState.Measure, bank := PinBank.Lower }
    else if !s.upper_finished && check_insert PinBank.Upper r then
      { s with test_state := TestState.Measure, bank := PinBank.Upper }
    else s
  | TestState.Measure =>
    let s := { s with counter := s.counter + 1 }
    let new_result := settling_check PinBank.Lower r
    let stab := stab_update new_result s.last_result s.stabilize
    let s := { s with stabilize := stab, last_result := new_result }
    if stab = 4 then
      if s.bank = PinBank.Lower then
        { s with lower_result := check_pins PinBank.Lower r,
                 lower_finished := true, test_state := TestState.WaitInsert }
      else
        { s with upper_result := check_pins PinBank.Upper r,
                 upper_finished := true, test_state := TestState.WaitInsert }
    else s
  | TestState.ReportResult => s

/-! ## Claims about the reader, the scanner and the sequencer -/

/-- Claim C8: for every pin present in `CHANNEL_MAP`, `Adc::read` returns the
calibration sample (channel `3 + 8 = 11`) minus the measurement sample when the
measurement is strictly below calibration, and `0` when the measurement is at
or above calibration; as an integer the result is exactly
`max 0 (cal - meas)`, never negative. -/
theorem c8_read_calibrated_delta (sample : Nat → Nat) (channel : utralib.Field) (i : Nat)
    (h : CHANNEL_MAP.findIdx? (fun f => f == channel) = some i) :
    Adc.read sample channel =
      some (if sample 11 ≤ sample i then 0 else sample 11 - sample i) ∧
    ((if sample 11 ≤ sample i then 0 else sample 11 - sample i : Nat) : ℤ) =
      max 0 ((sample 11 : ℤ) - (sample i : ℤ)) := by
  constructor
  · simp only [Adc.read, h]
    norm_num
    split_ifs <;> rfl
  · split_ifs with hle
    · simp
      omega
    · push_cast
      omega

/-- Witness for C8: pin `DUT_D1_P_A6` is channel 0; with sample values equal to
the channel number, calibration is 11, measurement 0, and the reading is 11. -/
theorem c8_read_calibrated_delta_witness :
    Adc.read (fun n => n) utralib.Field.DUT_D1_P_A6 = some 11 := by
  have h := c8_read_calibrated_delta (fun n => n) utralib.Field.DUT_D1_P_A6 0 (by decide)
  simpa using h.1

/-- Claim C10: `check_pins` always returns a 12-element array; scanning the
Upper bank writes only slots 0–3 with `(Some(label), reading)` and slots 4–11
keep the initial `(None, u16::MAX)`. -/
theorem c10_check_pins_fixed_array (r : utralib.Field → Option Nat) :
    (check_pins PinBank.Lower r).length = 12 ∧
    (check_pins PinBank.Upper r).length = 12 ∧
    check_pins PinBank.Upper r =
      [(some "DUT_GND_EX", read_or_max r .DUT_GND_EX),
       (some "DUT_VBUS_EX", read_or_max r .DUT_VBUS_EX),
       (some "D_P: Pin B7", read_or_max r .DUT_D2_P_A6),
       (some "D_N: Pin B6", read_or_max r .DUT_D2_N_A7),
       (none, 65535), (none, 65535), (none, 65535), (none, 65535),
       (none, 65535), (none, 65535), (none, 65535), (none, 65535)] := by
  refine ⟨?_, ?_, ?_⟩ <;> rfl

/-- ADC oracle on which every mapped pin reads 0 (firmly connected). -/
def r_allzero : utralib.Field → Option Nat := fun _ => some 0

/-- Claim C1: the claim states that a run whose stored Lower readings (12 pins)
and stored Upper readings (4 pins) are all below 1000 yields verdict PASS. The
code violates this: the Upper result array keeps `(None, u16::MAX)` in its 8
unused padding slots and `ReportResult` folds over all 12 entries, so `passing`
is always cleared by the padding. With every actual pin reading 0, all 12 Lower
readings and all 4 Upper pin readings are below the threshold, yet
`report_passing` computes `false`. -/
theorem c1_report_result_always_fails :
    ((check_pins PinBank.Lower r_allzero).all
      (fun p => decide (p.2 < MIN_NC_THRESH))) = true ∧
    (((check_pins PinBank.Upper r_allzero).take 4).all
      (fun p => decide (p.2 < MIN_NC_THRESH))) = true ∧
    report_passing (check_pins PinBank.Lower r_allzero)
      (check_pins PinBank.Upper r_allzero) = false := by
  refine ⟨?_, ?_, ?_⟩ <;> rfl

/-- ADC oracle on which every Lower-bank pin reads 0 (connected) and every
Upper-bank pin reads 65535 (open). -/
def r_lower_connected : utralib.Field → Option Nat := fun f =>
  match f with
  | .DUT_GND_EX => some 65535
  | .DUT_VBUS_EX => some 65535
  | .DUT_D2_P_A6 => some 65535
  | .DUT_D2_N_A7 => some 65535
  | _ => some 0

/-- A Measure-state configuration with `current_bank = Upper` (Lower already
finished), as reached after `check_insert(Upper)` succeeded. -/
def measure_upper_state : TestLoopState :=
  { test_state := TestState.Measure, stabilize := 0,
    last_result := List.replicate 12 true,
    lower_result := List.replicate 12 (none, 65535), lower_finished := true,
    upper_result := List.replicate 12 (none, 65535), upper_finished := false,
    bank := PinBank.Upper, counter := 0 }

/-- Claim C2: the claim states the settlement snapshot in `Measure` is computed
by scanning `current_bank`. The code instead calls
`settling_check(PinBank::Lower)` unconditionally. With `bank = Upper`, Lower
pins all connected and Upper pins all open, the Upper bank scan is all-false,
yet the snapshot the step records is the all-true Lower scan. -/
theorem c2_measure_scans_lower_bank :
    settling_check PinBank.Lower r_lower_connected = List.replicate 12 true ∧
    settling_check PinBank.Upper r_lower_connected = List.replicate 12 false ∧
    (step measure_upper_state r_lower_connected).last_result =
      List.replicate 12 true ∧
    (step measure_upper_state r_lower_connected).stabilize = 1 := by
  refine ⟨?_, ?_, ?_, ?_⟩ <;> rfl

/-- Claim C9: in `WaitInsert` with neither bank finished and both banks showing
a connection, the sequencer picks the Lower bank and enters `Measure`. -/
theorem c9_lower_precedence (s : TestLoopState) (r : utralib.Field → Option Nat)
    (hstate : s.test_state = TestState.WaitInsert)
    (hu : s.upper_finished = false) (hl : s.lower_finished = false)
    (hlow : check_insert PinBank.Lower r = true)
    (hup : check_insert PinBank.Upper r = true) :
    (step s r).test_state = TestState.Measure ∧ (step s r).bank = PinBank.Lower := by
  unfold step
  rw [hstate]
  simp [hu, hl, hlow]

/-- The per-run state as initialised at test start (`TestState::WaitInsert`,
both banks unfinished, counters cleared). -/
def test_start_state : TestLoopState :=
  { test_state := TestState.WaitInsert, stabilize := 0,
    last_result := List.replicate 12 false,
    lower_result := List.replicate 12 (none, 65535), lower_finished := false,
    upper_result := List.replicate 12 (none, 65535), upper_finished := false,
    bank := PinBank.Lower, counter := 0 }

/-- Witness for C9: from the fresh start state with every pin reading 0 (both
banks appear inserted), the step enters `Measure` on the Lower bank. -/
theorem c9_lower_precedence_witness :
    (step test_start_state r_allzero).test_state = TestState.Measure ∧
    (step test_start_state r_allzero).bank = PinBank.Lower :=
  c9_lower_precedence test_start_state r_allzero rfl rfl rfl (by rfl) (by rfl)

/-! ## The debounce/stabilization tracker (src/sw/src/main.rs, Measure loop) -/

/-- The `Measure` loop iterated over successive settlement snapshots: apply the
stabilization-counter update of the source to each snapshot in turn, and return
the index of the snapshot at which `stabilize == 4` first holds (the source
exits `Measure` there), or `none` if the sequence ends unsettled. -/
def settle_index : List Bool → Nat → List (List Bool) → Option Nat
  | _, _, [] => none
  | last_result, stabilize, new_result :: rest =>
    let stab := stab_update new_result last_result stabilize
    if stab = 4 then some 0
    else (settle_index new_result stab rest).map (fun k => k + 1)

/-- The snapshot preceding index `i` of the sequence: the initial `last_result`
for `i = 0`, otherwise the snapshot at `i - 1`. -/
def prev_snap (last : List Bool) (l : List (List Bool)) (i : Nat) : List Bool :=
  if i = 0 then last else l.getD (i - 1) []

/-- The snapshots at indices `k-3 .. k` each equal their predecessor: four
consecutive identical snapshots ending at index `k` (counting the initial
`last_result` as the predecessor of index 0). -/
def match_window (last : List Bool) (l : List (List Bool)) (k : Nat) : Prop :=
  ∀ i, k - 3 ≤ i → i ≤ k → l.getD i [] = prev_snap last l i

/-- The condition under which the tracker entered with counter `stab` can
declare settlement at index `m`: the comparisons at `m-3 .. m` all match
(as computed by `results_equal`), topped up by `stab` pre-existing matches
when `m < 3`. -/
def settle_cond (last : List Bool) (stab : Nat) (l : List (List Bool)) (m : Nat) : Prop :=
  m < l.length ∧
  (∀ i, m - 3 ≤ i → i ≤ m →
    results_equal (l.getD i []) (prev_snap last l i) = true) ∧
  3 - m ≤ stab

theorem results_equal_iff (a b : List Bool) (h : a.length = b.length) :
    results_equal a b = true ↔ a = b := by
  induction a generalizing b with
  | nil =>
    cases b with
    | nil => simp [results_equal]
    | cons y ys => simp at h
  | cons x xs ih =>
    cases b with
    | nil => simp at h
    | cons y ys =>
      have h2 : xs.length = ys.length := by simpa using h
      simp only [results_equal, List.zip_cons_cons, List.all_cons, Bool.and_eq_true,
        beq_iff_eq, List.cons.injEq]
      rw [show ((xs.zip ys).all fun p => p.1 == p.2) = results_equal xs ys from rfl]
      rw [ih ys h2]

theorem prev_snap_cons (last a : List Bool) (rest : List (List Bool)) (i : Nat)
    (hi : 1 ≤ i) :
    (a :: rest).getD i [] = rest.getD (i - 1) [] ∧
    prev_snap last (a :: rest) i = prev_snap a rest (i - 1) := by
  cases i with
  | zero => omega
  | succ n =>
    refine ⟨by simp, ?_⟩
    unfold prev_snap
    cases n with
    | zero => simp
    | succ k => simp

theorem settle_cond_shift (last a : List Bool) (rest : List (List Bool)) (stab m : Nat)
    (hm : 1 ≤ m) :
    settle_cond last stab (a :: rest) m ↔
      settle_cond a (stab_update a last stab) rest (m - 1) := by
  unfold settle_cond
  have hw_mp : (∀ i, m - 3 ≤ i → i ≤ m →
      results_equal ((a :: rest).getD i []) (prev_snap last (a :: rest) i) = true) →
      ∀ j, m - 1 - 3 ≤ j → j ≤ m - 1 →
        results_equal (rest.getD j []) (prev_snap a rest j) = true := by
    intro hwin j hj1 hj2
    have hps := prev_snap_cons last a rest (j + 1) (by omega)
    have hj := hwin (j + 1) (by omega) (by omega)
    rw [hps.1, hps.2] at hj
    simpa using hj
  unfold stab_update
  by_cases heq : results_equal a last = true
  · rw [if_pos heq]
    constructor
    · rintro ⟨hlen, hwin, hboost⟩
      refine ⟨?_, hw_mp hwin, ?_⟩
      · simp only [List.length_cons] at hlen
        omega
      · omega
    · rintro ⟨hlen, hwin, hboost⟩
      refine ⟨?_, ?_, ?_⟩
      · simp only [List.length_cons]
        omega
      · intro i hi1 hi2
        rcases Nat.eq_zero_or_pos i with h0 | hpos
        · subst h0
          simpa [prev_snap] using heq
        · have hps := prev_snap_cons last a rest i (by omega)
          rw [hps.1, hps.2]
          exact hwin (i - 1) (by omega) (by omega)
      · omega
  · rw [if_neg heq]
    by_cases hm4 : 4 ≤ m
    · constructor
      · rintro ⟨hlen, hwin, hboost⟩
        refine ⟨?_, hw_mp hwin, ?_⟩
        · simp only [List.length_cons] at hlen
          omega
        · omega
      · rintro ⟨hlen, hwin, hboost⟩
        refine ⟨?_, ?_, ?_⟩
        · simp only [List.length_cons]
          omega
        · intro i hi1 hi2
          have hps := prev_snap_cons last a rest i (by omega)
          rw [hps.1, hps.2]
          exact hwin (i - 1) (by omega) (by omega)
        · omega
    · constructor
      · rintro ⟨hlen, hwin, hboost⟩
        exfalso
        exact heq (by simpa [prev_snap] using hwin 0 (by omega) (by omega))
      · rintro ⟨hlen, hwin, hboost⟩
        exfalso
        omega

theorem settle_index_iff (l : List (List Bool)) :
    ∀ (last : List Bool) (stab : Nat), stab ≤ 3 → ∀ n,
      (settle_index last stab l = some n ↔
        settle_cond last stab l n ∧ ∀ m, m < n → ¬ settle_cond last stab l m) := by
  induction l with
  | nil =>
    intro last stab hstab n
    constructor
    · intro h
      simp [settle_index] at h
    · rintro ⟨⟨hlen, hrest⟩, hmin⟩
      simp at hlen
  | cons a rest ih =>
    intro last stab hstab n
    simp only [settle_index]
    by_cases h4 : stab_update a last stab = 4
    · rw [if_pos h4]
      have heq : results_equal a last = true := by
        by_contra hne
        unfold stab_update at h4
        rw [if_neg hne] at h4
        omega
      have hstab3 : stab = 3 := by
        unfold stab_update at h4
        rw [if_pos heq] at h4
        omega
      have hc0 : settle_cond last stab (a :: rest) 0 := by
        refine ⟨by simp, ?_, by omega⟩
        intro i hi1 hi2
        have hi0 : i = 0 := by omega
        subst hi0
        simpa [prev_snap] using heq
      constructor
      · intro hsome
        have hn : n = 0 := by
          simp only [Option.some.injEq] at hsome
          omega
        subst hn
        refine ⟨hc0, ?_⟩
        intro m hm
        exact absurd hm (by omega)
      · rintro ⟨hcond, hmin⟩
        rcases Nat.eq_zero_or_pos n with h0 | hpos
        · subst h0; rfl
        · exact absurd hc0 (hmin 0 hpos)
    · rw [if_neg h4]
      have hstab' : stab_update a last stab ≤ 3 := by
        unfold stab_update at h4 ⊢
        split_ifs at h4 ⊢ <;> omega
      have hnc0 : ¬ settle_cond last stab (a :: rest) 0 := by
        rintro ⟨hlen, hwin, hboost⟩
        have heq : results_equal a last = true := by
          simpa [prev_snap] using hwin 0 (by omega) (by omega)
        unfold stab_update at h4
        rw [if_pos heq] at h4
        omega
      constructor
      · intro hsome
        rw [Option.map_eq_some'] at hsome
        obtain ⟨k, hk, hkn⟩ := hsome
        have hres := (ih a (stab_update a last stab) hstab' k).mp hk
        subst hkn
        refine ⟨?_, ?_⟩
        · exact (settle_cond_shift last a rest stab (k + 1) (by omega)).mpr hres.1
        · intro m hm
          rcases Nat.eq_zero_or_pos m with h0 | hpos
          · subst h0; exact hnc0
          · intro hcm
            have hshift := (settle_cond_shift last a rest stab m (by omega)).mp hcm
            exact hres.2 (m - 1) (by omega) hshift
      · rintro ⟨hcond, hmin⟩
        rcases Nat.eq_zero_or_pos n with h0 | hpos
        · subst h0
          exact absurd hcond hnc0
        · have hcr : settle_cond a (stab_update a last stab) rest (n - 1) :=
            (settle_cond_shift last a rest stab n (by omega)).mp hcond
          have hminr : ∀ m, m < n - 1 →
              ¬ settle_cond a (stab_update a last stab) rest m := by
            intro m hm hcm
            refine hmin (m + 1) (by omega) ?_
            exact (settle_cond_shift last a rest stab (m + 1) (by omega)).mpr hcm
          have hsi := (ih a (stab_update a last stab) hstab' (n - 1)).mpr ⟨hcr, hminr⟩
          rw [hsi]
          simp only [Option.map_some']
          congr 1
          omega

theorem snap_length_eq (last : List Bool) (l : List (List Bool)) (i k : Nat)
    (hlast : last.length = 12) (hl : ∀ s ∈ l, s.length = 12)
    (hik : i ≤ k) (hk : k < l.length) :
    (l.getD i []).length = (prev_snap last l i).length := by
  have hi : i < l.length := by omega
  have h1 : (l.getD i []).length = 12 := by
    rw [List.getD_eq_getElem _ _ hi]
    exact hl _ (List.getElem_mem hi)
  have h2 : (prev_snap last l i).length = 12 := by
    unfold prev_snap
    split
    · exact hlast
    · have hi2 : i - 1 < l.length := by omega
      rw [List.getD_eq_getElem _ _ hi2]
      exact hl _ (List.getElem_mem hi2)
  rw [h1, h2]

theorem settle_cond_zero_iff (last : List Bool) (l : List (List Bool)) (k : Nat)
    (hlast : last.length = 12) (hl : ∀ s ∈ l, s.length = 12) :
    settle_cond last 0 l k ↔ (k < l.length ∧ 3 ≤ k ∧ match_window last l k) := by
  unfold settle_cond match_window
  constructor
  · rintro ⟨hlen, hwin, hboost⟩
    refine ⟨hlen, by omega, ?_⟩
    intro i hi1 hi2
    have hre := hwin i hi1 hi2
    rw [results_equal_iff _ _ (snap_length_eq last l i k hlast hl hi2 hlen)] at hre
    exact hre
  · rintro ⟨hlen, h3, hwin⟩
    refine ⟨hlen, ?_, by omega⟩
    intro i hi1 hi2
    rw [results_equal_iff _ _ (snap_length_eq last l i k hlast hl hi2 hlen)]
    exact hwin i hi1 hi2

/-- Claim C5: fed a sequence of settlement snapshots, the tracker started with
counter 0 increments on an identical snapshot and resets on a differing one
(`stab_update`), and it declares the bank settled exactly at the first index
ending four consecutive matches — the 4th consecutive identical comparison —
and never after fewer consecutive matches. -/
theorem c5_settles_at_fourth_match (last : List Bool) (l : List (List Bool)) (n : Nat)
    (hlast : last.length = 12) (hl : ∀ s ∈ l, s.length = 12) :
    settle_index last 0 l = some n ↔
      (n < l.length ∧ 3 ≤ n ∧ match_window last l n ∧
        ∀ m, m < n → ¬ (3 ≤ m ∧ match_window last l m)) := by
  rw [settle_index_iff l last 0 (by omega) n]
  constructor
  · rintro ⟨hc, hmin⟩
    obtain ⟨hlen, h3, hw⟩ := (settle_cond_zero_iff last l n hlast hl).mp hc
    refine ⟨hlen, h3, hw, ?_⟩
    rintro m hm ⟨h3m, hwm⟩
    exact hmin m hm
      ((settle_cond_zero_iff last l m hlast hl).mpr ⟨by omega, h3m, hwm⟩)
  · rintro ⟨hlen, h3, hw, hmin⟩
    refine ⟨(settle_cond_zero_iff last l n hlast hl).mpr ⟨hlen, h3, hw⟩, ?_⟩
    intro m hm hcm
    obtain ⟨hmlen, h3m, hwm⟩ := (settle_cond_zero_iff last l m hlast hl).mp hcm
    exact hmin m hm ⟨h3m, hwm⟩

/-- Witness for C5: four identical all-open snapshots settle at index 3 (the
4th consecutive match), extracted by applying the theorem to the evaluated
tracker run. -/
theorem c5_settles_at_fourth_match_witness :
    3 < (List.replicate 4 (List.replicate 12 false)).length ∧
    match_window (List.replicate 12 false)
      (List.replicate 4 (List.replicate 12 false)) 3 := by
  have h := (c5_settles_at_fourth_match (List.replicate 12 false)
    (List.replicate 4 (List.replicate 12 false)) 3 (by decide) (by decide)).mp (by rfl)
  exact ⟨h.1, h.2.2.1⟩

/-- Witness for C7 at the claim's own example: `add_s` from time zero with the
maximal u32 second count saturates at the 40-bit maximum. -/
theorem c7_add_s_saturates_witness :
    (TimeMs.add_s { time0 := 0, time1 := 0 } 4294967295).value ≤ 2 ^ 40 - 1 ∧
      (TimeMs.add_s { time0 := 0, time1 := 0 } 4294967295).value = 2 ^ 40 - 1 :=
  c7_add_s_saturates { time0 := 0, time1 := 0 } 4294967295
    (by decide) (by decide) (by decide)
